import Mathlib

/-
Shallow embedding of the wyoming-microwakeword session manager
(src/wyoming_microwakeword/__main__.py) and proofs about its
documented properties.

Conventions of the embedding:
- Monotonic-clock readings (`time.monotonic()`) and the refractory
  duration (`--refractory-seconds`) are modelled as rationals.
- The external inference library (`pymicro_wakeword`) is opaque: its
  `Model` enum is embedded as an inductive of builtin identifiers, a
  `MicroWakeWord` instance is represented by its construction provenance,
  and the boolean result of `MicroWakeWord.process_streaming` is supplied
  as an oracle input to the dispatcher.
- Python `set` iteration order is unspecified, so every place the code
  iterates over the `self.models` set takes the iteration order as an
  explicit argument, constrained (in theorems) to be a permutation of the
  set's contents.
- Python exceptions (`json.load` failures, `KeyError`) surface as
  `Except.error`.
-/

namespace WyomingMicroWakeWord

/-- Builtin wake-word identifiers of the external pymicro_wakeword `Model`
enum (opaque collaborator; only its name/value correspondence matters). -/
inductive Model where
  | okay_nabu
  | hey_jarvis
  | hey_mycroft
deriving DecidableEq

/-- Value (wire name) of a builtin model, as in the Python enum. -/
def Model.value : Model → String
  | .okay_nabu => "okay_nabu"
  | .hey_jarvis => "hey_jarvis"
  | .hey_mycroft => "hey_mycroft"

/-- Embedding of the Python enum call `Model(name)`: lookup by value,
`none` when the `ValueError` branch is taken. -/
def Model.fromValue (s : String) : Option Model :=
  if s = "okay_nabu" then some .okay_nabu
  else if s = "hey_jarvis" then some .hey_jarvis
  else if s = "hey_mycroft" then some .hey_mycroft
  else none

/-- DEFAULT_MODEL = Model.OKAY_NABU (line 23). -/
def DEFAULT_MODEL : Model := .okay_nabu

/-- CustomModel dataclass (lines 26-41): name, config path, model path. -/
structure CustomModel where
  name : String
  config_path : String
  model_path : String
deriving DecidableEq

/-- An element of the `self.models` set: `Union[Model, CustomModel]`. -/
inductive ModelSel where
  | builtin (m : Model)
  | custom (c : CustomModel)
deriving DecidableEq

/-- Python equality on set elements: `Model` members compare by identity,
`CustomModel.__eq__` compares by name only (lines 37-41), and a `Model`
never equals a `CustomModel`. -/
def ModelSel.pyEq : ModelSel → ModelSel → Bool
  | .builtin a, .builtin b => a == b
  | .custom a, .custom b => a.name == b.name
  | _, _ => false

/-- Resolved display name of a selection entry. -/
def ModelSel.selName : ModelSel → String
  | .builtin m => m.value
  | .custom c => c.name

/-- Opaque `MicroWakeWord` inference instance, represented by which
constructor produced it (lines 224 and 231). -/
inductive MicroWakeWord where
  | from_builtin (m : Model)
  | from_config (config_path : String)
deriving DecidableEq

/-- Detector dataclass (lines 141-146): per-stream bookkeeping next to the
opaque inference object. -/
structure Detector where
  name : String
  mww : MicroWakeWord
  detected : Bool := false
  last_detected : Option ℚ := none
deriving DecidableEq

/-- One detector's handling of one fired/not-fired streaming-inference
result at monotonic time `now` (lines 176-199): a firing inside the
refractory window is skipped; otherwise a Detection event is emitted
(second component `true`), `detected` is set and `last_detected` becomes
`now`. -/
def detectorStep (refractory now : ℚ) (fired : Bool) (d : Detector) :
    Detector × Bool :=
  if fired then
    match d.last_detected with
    | some t =>
        if now - t < refractory then (d, false)
        else ({ d with detected := true, last_detected := some now }, true)
    | none => ({ d with detected := true, last_detected := some now }, true)
  else (d, false)

theorem detectorStep_not_fired (refractory now : ℚ) (d : Detector) :
    detectorStep refractory now false d = (d, false) := rfl

theorem detectorStep_name (refractory now : ℚ) (fired : Bool) (d : Detector) :
    (detectorStep refractory now fired d).1.name = d.name := by
  unfold detectorStep
  cases fired <;> simp
  cases h : d.last_detected <;> simp
  split <;> simp

/-- Inner loop of the AudioChunk branch for one feature frame: the
detectors are visited in pool order, each paired with the oracle result of
its `mww.process_streaming(features)` call (missing oracle entries default
to not-fired); emitted Detection names are collected in pool order. -/
def poolStep (refractory now : ℚ) :
    List Detector → List Bool → List Detector × List String
  | [], _ => ([], [])
  | d :: ds, fs =>
      let r1 := detectorStep refractory now (fs.headD false) d
      let rest := poolStep refractory now ds fs.tail
      (r1.1 :: rest.1, (if r1.2 then [r1.1.name] else []) ++ rest.2)

theorem poolStep_length (refractory now : ℚ) (ds : List Detector)
    (fs : List Bool) : (poolStep refractory now ds fs).1.length = ds.length := by
  induction ds generalizing fs with
  | nil => rfl
  | cons d ds ih => simp [poolStep, ih]

/-- Each detector's post-frame state depends only on its own prior state
and its own oracle bit. -/
theorem poolStep_get (refractory now : ℚ) (ds : List Detector)
    (fs : List Bool) (j : ℕ) :
    (poolStep refractory now ds fs).1[j]? =
      (ds[j]?).map fun d =>
        (detectorStep refractory now (fs[j]?.getD false) d).1 := by
  induction ds generalizing fs j with
  | nil => simp [poolStep]
  | cons d ds ih =>
      cases j with
      | zero =>
          simp [poolStep]
          cases fs <;> simp
      | succ j =>
          cases fs with
          | nil => simp [poolStep, ih]
          | cons f fs => simp [poolStep, ih]

/-- Fold a list of feature frames (each a monotonic time paired with the
per-detector oracle bits) through the pool, as the AudioChunk branch's
outer loop over `mww_features.process_streaming(chunk.audio)` does. -/
def processFrames (refractory : ℚ) :
    List (ℚ × List Bool) → List Detector → List Detector
  | [], ds => ds
  | frame :: rest, ds =>
      processFrames refractory rest (poolStep refractory frame.1 ds frame.2).1

theorem processFrames_length (refractory : ℚ) (frames : List (ℚ × List Bool))
    (ds : List Detector) :
    (processFrames refractory frames ds).length = ds.length := by
  induction frames generalizing ds with
  | nil => rfl
  | cons f rest ih => simp [processFrames, ih, poolStep_length]

/-- Mutable per-connection state of MicroWakeWordEventHandler: the
`self.models` selection set (kept here as its contents in insertion order;
iteration order over the Python set is a permutation supplied separately)
and the `self.detectors` pool. -/
structure HandlerState where
  models : List ModelSel
  detectors : List Detector
deriving DecidableEq

/-- State right after `__init__` (lines 165-166): empty pool, empty
selection set. -/
def initState : HandlerState := { models := [], detectors := [] }

/-- Membership test of the Python `set`, under Python equality. -/
def setMem (xs : List ModelSel) (m : ModelSel) : Bool :=
  xs.any (fun x => ModelSel.pyEq x m)

/-- Python `set.add`: a no-op when an equal element is present. -/
def setInsert (xs : List ModelSel) (m : ModelSel) : List ModelSel :=
  if setMem xs m then xs else xs ++ [m]

/-- Python `dict.get` over the custom-models dict, embedded as an
association list in insertion order. -/
def dictGet (customModels : List (String × CustomModel)) (name : String) :
    Option CustomModel :=
  match customModels with
  | [] => none
  | p :: rest => if p.1 = name then some p.2 else dictGet rest name

/-- Resolution of one requested name (lines 205-213): the custom-model
dict is consulted first, then the builtin `Model` enum; `none` means the
`ValueError` branch logged "Unknown model name". -/
def resolveName (customModels : List (String × CustomModel)) (name : String) :
    Option ModelSel :=
  match dictGet customModels name with
  | some c => some (ModelSel.custom c)
  | none =>
      match Model.fromValue name with
      | some m => some (ModelSel.builtin m)
      | none => none

/-- The Detect loop over `detect.names` (lines 203-213), threading the
selection set and collecting the warned-about unresolvable names. -/
def resolveLoop (customModels : List (String × CustomModel)) :
    List String → List ModelSel → List ModelSel × List String
  | [], acc => (acc, [])
  | n :: rest, acc =>
      match resolveName customModels n with
      | some m => resolveLoop customModels rest (setInsert acc m)
      | none =>
          let r := resolveLoop customModels rest acc
          (r.1, n :: r.2)

/-- Handling of a Detect event (lines 200-213): `self.models.clear()`
followed by re-resolution of the requested names (an empty name list
leaves the set empty). The pool is untouched. -/
def handleDetect (customModels : List (String × CustomModel))
    (names : List String) (s : HandlerState) : HandlerState :=
  { s with models := (resolveLoop customModels names []).1 }

/-- Contents of `self.models` after the default fallback at AudioStart
(lines 215-217): the default model is added exactly when the set is
empty. -/
def startModels (s : HandlerState) : List ModelSel :=
  if s.models.isEmpty then [ModelSel.builtin DEFAULT_MODEL] else s.models

/-- Construction of one Detector from a selection entry (lines 220-233):
builtins via `MicroWakeWord.from_builtin`, custom models via
`MicroWakeWord.from_config`; the dataclass defaults give
`detected = False`, `last_detected = None`. -/
def detectorOfModel : ModelSel → Detector
  | .builtin m => { name := m.value, mww := .from_builtin m }
  | .custom c => { name := c.name, mww := .from_config c.config_path }

/-- Handling of AudioStart (lines 214-235). `order` is the iteration
order of the `for model in self.models` loop; Python set iteration order
is unspecified, so theorems only assume it is a permutation of the set's
contents. -/
def handleAudioStart (order : List ModelSel) (s : HandlerState) :
    HandlerState :=
  { models := startModels s, detectors := order.map detectorOfModel }

/-- Handling of AudioStop (lines 236-246): NotDetected is written (second
component `true`) exactly when no detector in the current pool has its
`detected` flag set — in particular always when the pool is empty — and
then the pool is cleared. The selection set is untouched. -/
def handleAudioStop (s : HandlerState) : HandlerState × Bool :=
  ({ s with detectors := [] }, !s.detectors.any (fun d => d.detected))

/-- Shared example detector: a freshly built okay_nabu detector. -/
def okayNabuDetector : Detector := detectorOfModel (ModelSel.builtin Model.okay_nabu)

/-- Shared example detector: a freshly built hey_jarvis detector. -/
def heyJarvisDetector : Detector := detectorOfModel (ModelSel.builtin Model.hey_jarvis)

/-- C1: for a single detector with no prior firing in this stream, two
firings at monotonic times t1 ≤ t2 emit exactly one Detection when
t2 - t1 < refractorySeconds (the second firing is suppressed and changes
nothing) and exactly two when t2 - t1 ≥ refractorySeconds; each emission
records the current monotonic time in last_detected. -/
theorem detector_refractory_window (refractory t1 t2 : ℚ) (d0 : Detector)
    (hfresh : d0.last_detected = none) (hmono : t1 ≤ t2) :
    (detectorStep refractory t1 true d0).2 = true ∧
    (detectorStep refractory t1 true d0).1.last_detected = some t1 ∧
    (t2 - t1 < refractory →
      detectorStep refractory t2 true (detectorStep refractory t1 true d0).1 =
        ((detectorStep refractory t1 true d0).1, false)) ∧
    (¬ t2 - t1 < refractory →
      (detectorStep refractory t2 true
          (detectorStep refractory t1 true d0).1).2 = true ∧
      (detectorStep refractory t2 true
          (detectorStep refractory t1 true d0).1).1.last_detected = some t2) := by
  have h1 : detectorStep refractory t1 true d0 =
      ({ d0 with detected := true, last_detected := some t1 }, true) := by
    simp [detectorStep, hfresh]
  refine ⟨by rw [h1], by rw [h1], ?_, ?_⟩
  · intro hlt
    rw [h1]
    simp [detectorStep, hlt]
  · intro hge
    rw [h1]
    simp [detectorStep, hge]

/-- Witness for C1: with refractory 2, firings at times 0 and 1 of a fresh
okay_nabu detector, the second firing is suppressed and emits nothing. -/
theorem detector_refractory_window_witness :
    okayNabuDetector.last_detected = none ∧ (0 : ℚ) ≤ 1 ∧
    detectorStep 2 1 true (detectorStep 2 0 true okayNabuDetector).1 =
      ((detectorStep 2 0 true okayNabuDetector).1, false) :=
  ⟨rfl, by norm_num,
    (detector_refractory_window 2 0 1 okayNabuDetector rfl
      (by norm_num)).2.2.1 (by norm_num)⟩

/-- C3 counterexample: starting from a stream with one (undetected)
okay_nabu detector, the first AudioStop emits NotDetected and the second
consecutive AudioStop emits NotDetected AGAIN, because the cleared pool
also counts as "no detections occurred": the claim that the second
AudioStop emits no event is false. -/
theorem double_audio_stop_double_emit :
    (handleAudioStop
        { models := [ModelSel.builtin Model.okay_nabu],
          detectors := [okayNabuDetector] }).2 = true ∧
    (handleAudioStop
        (handleAudioStop
          { models := [ModelSel.builtin Model.okay_nabu],
            detectors := [okayNabuDetector] }).1).2 = true :=
  ⟨rfl, rfl⟩

/-- C3 amended: processing two consecutive AudioStop events never raises
an error (the handler is a total function), but the second AudioStop
always re-emits NotDetected, since it sees the pool already cleared by the
first one and an empty pool has no detector with a set detected flag. -/
theorem audio_stop_twice (s : HandlerState) :
    (handleAudioStop (handleAudioStop s).1).2 = true ∧
    (handleAudioStop (handleAudioStop s).1).1.detectors = [] :=
  ⟨rfl, rfl⟩

/-- C5: in a pool holding distinct detectors A (at position i) and B (at
position j), a frame on which A fires and emits a Detection while B does
not fire leaves B's entry — in particular its detected flag and its
last_detected refractory timestamp — completely unchanged. -/
theorem cross_model_independence (refractory now : ℚ) (ds : List Detector)
    (fs : List Bool) (i j : ℕ) (A B : Detector) (hij : i ≠ j)
    (hA : ds[i]? = some A) (hB : ds[j]? = some B)
    (hfi : fs[i]?.getD false = true) (hfj : fs[j]?.getD false = false)
    (hemit : (detectorStep refractory now true A).2 = true) :
    (poolStep refractory now ds fs).1[j]? = some B := by
  rw [poolStep_get, hB]
  simp [hfj, detectorStep_not_fired]

/-- Witness for C5: pool of a fresh okay_nabu detector and a fresh
hey_jarvis detector; the first fires and emits, the second is untouched. -/
theorem cross_model_independence_witness :
    (0 : ℕ) ≠ 1 ∧
    (detectorStep 2 5 true okayNabuDetector).2 = true ∧
    (poolStep 2 5 [okayNabuDetector, heyJarvisDetector]
        [true, false]).1[1]? = some heyJarvisDetector :=
  ⟨by decide, rfl,
    cross_model_independence 2 5 [okayNabuDetector, heyJarvisDetector]
      [true, false] 0 1 okayNabuDetector heyJarvisDetector (by decide)
      rfl rfl rfl rfl rfl⟩

/-- One event handled by the session, as a relation on (handler state,
stream-active ghost flag). The ghost flag records whether we are between
AudioStart and AudioStop. `chunk` covers the AudioChunk branch (its
feature frames and per-detector inference results are oracle inputs),
`describe` also stands for the no-op "unexpected event" branch, and
`start` carries the unspecified iteration order of the `self.models`
set. -/
inductive SessionStep (customModels : List (String × CustomModel))
    (refractory : ℚ) :
    HandlerState × Bool → HandlerState × Bool → Prop
  | chunk (s : HandlerState) (b : Bool) (frames : List (ℚ × List Bool)) :
      SessionStep customModels refractory (s, b)
        ({ s with detectors := processFrames refractory frames s.detectors }, b)
  | detect (s : HandlerState) (b : Bool) (names : List String) :
      SessionStep customModels refractory (s, b)
        (handleDetect customModels names s, b)
  | start (s : HandlerState) (b : Bool) (order : List ModelSel)
      (horder : order.Perm (startModels s)) :
      SessionStep customModels refractory (s, b)
        (handleAudioStart order s, true)
  | stop (s : HandlerState) (b : Bool) :
      SessionStep customModels refractory (s, b)
        ((handleAudioStop s).1, false)
  | describe (s : HandlerState) (b : Bool) :
      SessionStep customModels refractory (s, b) (s, b)

/-- States reachable from a fresh connection (empty selection, empty
pool, no stream active). -/
def Reachable (customModels : List (String × CustomModel)) (refractory : ℚ)
    (x : HandlerState × Bool) : Prop :=
  Relation.ReflTransGen (SessionStep customModels refractory)
    (initState, false) x

theorem startModels_ne_nil (s : HandlerState) : startModels s ≠ [] := by
  cases h : s.models with
  | nil => simp [startModels, h]
  | cons a l => simp [startModels, h]

theorem sessionStep_preserves (customModels : List (String × CustomModel))
    (refractory : ℚ) {x y : HandlerState × Bool}
    (h : SessionStep customModels refractory x y)
    (hx : x.1.detectors ≠ [] ↔ x.2 = true) :
    y.1.detectors ≠ [] ↔ y.2 = true := by
  cases h with
  | chunk s b frames =>
      have h0 : (processFrames refractory frames s.detectors = []) ↔
          s.detectors = [] := by
        rw [← List.length_eq_zero, ← List.length_eq_zero,
          processFrames_length]
      exact (not_congr h0).trans hx
  | detect s b names => exact hx
  | start s b order horder =>
      have hne : order ≠ [] := by
        intro h0
        apply startModels_ne_nil s
        have hlen := horder.length_eq
        rw [h0] at hlen
        simp only [List.length_nil] at hlen
        exact List.length_eq_zero.mp hlen.symm
      simp [handleAudioStart, List.map_eq_nil_iff, hne]
  | stop s b => simp [handleAudioStop]
  | describe s b => exact hx

/-- C9: in every reachable session state, the detector pool is non-empty
exactly while a stream is active: it is empty at session creation and
after every AudioStop, and holds at least one Detector from AudioStart
until the next AudioStop. -/
theorem pool_nonempty_iff_streaming
    (customModels : List (String × CustomModel)) (refractory : ℚ)
    (s : HandlerState) (b : Bool)
    (h : Reachable customModels refractory (s, b)) :
    s.detectors ≠ [] ↔ b = true := by
  suffices H : ∀ x, Reachable customModels refractory x →
      (x.1.detectors ≠ [] ↔ x.2 = true) from H (s, b) h
  intro x hx
  induction hx with
  | refl => simp [initState]
  | tail hab hbc ih => exact sessionStep_preserves customModels refractory hbc ih

/-- Witness for C9: after a single AudioStart from a fresh session the
pool is non-empty (and the stream is active). -/
theorem pool_nonempty_iff_streaming_witness :
    (handleAudioStart [ModelSel.builtin Model.okay_nabu] initState).detectors
      ≠ [] ↔ true = true :=
  pool_nonempty_iff_streaming [] 2
    (handleAudioStart [ModelSel.builtin Model.okay_nabu] initState) true
    (Relation.ReflTransGen.single
      (SessionStep.start initState false [ModelSel.builtin Model.okay_nabu]
        (List.Perm.refl _)))

/-- C4: if no Detect event preceded AudioStart (fresh session), or the
most recent Detect resolved to an empty selection set, the pool built at
AudioStart is exactly one fresh Detector for the default model
okay_nabu, whatever iteration order the Python set yields. -/
theorem default_model_fallback (s0 : HandlerState)
    (customModels : List (String × CustomModel)) (names : List String)
    (order₁ order₂ : List ModelSel)
    (h₁ : order₁.Perm (startModels initState))
    (hres : (resolveLoop customModels names []).1 = [])
    (h₂ : order₂.Perm (startModels (handleDetect customModels names s0))) :
    (handleAudioStart order₁ initState).detectors =
      [detectorOfModel (ModelSel.builtin DEFAULT_MODEL)] ∧
    (handleAudioStart order₂ (handleDetect customModels names s0)).detectors =
      [detectorOfModel (ModelSel.builtin DEFAULT_MODEL)] := by
  have e1 : startModels initState = [ModelSel.builtin DEFAULT_MODEL] := rfl
  have e2 : startModels (handleDetect customModels names s0) =
      [ModelSel.builtin DEFAULT_MODEL] := by
    simp [startModels, handleDetect, hres]
  rw [e1] at h₁
  rw [e2] at h₂
  have o1 := List.perm_singleton.mp h₁
  have o2 := List.perm_singleton.mp h₂
  simp [handleAudioStart, o1, o2]

/-- Witness for C4: with no custom models, a Detect naming only the
unresolvable "unknown_model" still yields a pool of exactly the default
okay_nabu detector at AudioStart. -/
theorem default_model_fallback_witness :
    (resolveLoop [] ["unknown_model"] []).1 = [] ∧
    (handleAudioStart [ModelSel.builtin Model.okay_nabu]
        (handleDetect [] ["unknown_model"] initState)).detectors =
      [detectorOfModel (ModelSel.builtin DEFAULT_MODEL)] :=
  ⟨rfl,
    (default_model_fallback initState [] ["unknown_model"]
      [ModelSel.builtin Model.okay_nabu] [ModelSel.builtin Model.okay_nabu]
      (List.Perm.refl _) rfl (List.Perm.refl _)).2⟩

/-- C10: every AudioStart rebuilds the pool from freshly constructed
Detector records: each pool member has detected = false and
last_detected = none, hence its first firing in the new stream is never
refractory-suppressed, and an AudioStop right after the AudioStart still
reports NotDetected regardless of what was detected in earlier streams. -/
theorem audio_start_fresh_pool (s : HandlerState) (order : List ModelSel)
    (refractory now : ℚ) (d : Detector)
    (hd : d ∈ (handleAudioStart order s).detectors) :
    d.detected = false ∧ d.last_detected = none ∧
    (detectorStep refractory now true d).2 = true ∧
    (handleAudioStop (handleAudioStart order s)).2 = true := by
  have hmem : ∃ m ∈ order, detectorOfModel m = d := by
    simpa [handleAudioStart] using hd
  obtain ⟨m, hm, rfl⟩ := hmem
  have hdet : (detectorOfModel m).detected = false := by
    cases m <;> rfl
  have hlast : (detectorOfModel m).last_detected = none := by
    cases m <;> rfl
  refine ⟨hdet, hlast, ?_, ?_⟩
  · simp [detectorStep, hlast]
  · have hall : ((order.map detectorOfModel).any fun d => d.detected) = false := by
      rw [List.any_eq_false]
      intro d hd2
      rcases List.mem_map.mp hd2 with ⟨m2, hm2, rfl⟩
      cases m2 <;> simp [detectorOfModel]
    simp [handleAudioStop, handleAudioStart, hall]

/-- Witness for C10: the okay_nabu detector built by an AudioStart on a
session that already had a used detector is fresh, and its first firing
emits. -/
theorem audio_start_fresh_pool_witness :
    okayNabuDetector ∈
      (handleAudioStart [ModelSel.builtin Model.okay_nabu]
        { models := [ModelSel.builtin Model.okay_nabu],
          detectors := [{ name := "okay_nabu",
                          mww := .from_builtin Model.okay_nabu,
                          detected := true, last_detected := some 7 }] }).detectors ∧
    okayNabuDetector.detected = false ∧
    okayNabuDetector.last_detected = none ∧
    (detectorStep 2 9 true okayNabuDetector).2 = true :=
  ⟨by decide,
    let h := audio_start_fresh_pool
      { models := [ModelSel.builtin Model.okay_nabu],
        detectors := [{ name := "okay_nabu",
                        mww := .from_builtin Model.okay_nabu,
                        detected := true, last_detected := some 7 }] }
      [ModelSel.builtin Model.okay_nabu] 2 9 okayNabuDetector (by decide)
    ⟨h.1, h.2.1, h.2.2.1⟩⟩

theorem detectorOfModel_name (m : ModelSel) :
    (detectorOfModel m).name = m.selName := by
  cases m <;> rfl

theorem fromValue_value (s : String) (m : Model)
    (h : Model.fromValue s = some m) : m.value = s := by
  unfold Model.fromValue at h
  split at h
  next h1 => injection h with h2; rw [← h2, h1]; rfl
  next =>
    split at h
    next h2 => injection h with h3; rw [← h3, h2]; rfl
    next =>
      split at h
      next h3 => injection h with h4; rw [← h4, h3]; rfl
      next => cases h

theorem value_inj (a b : Model) (h : a.value = b.value) : a = b := by
  cases a <;> cases b <;> revert h <;> decide

theorem pyEq_refl (m : ModelSel) : ModelSel.pyEq m m = true := by
  cases m <;> simp [ModelSel.pyEq]

theorem dictGet_mem {customModels : List (String × CustomModel)}
    {n : String} {c : CustomModel} (h : dictGet customModels n = some c) :
    (n, c) ∈ customModels := by
  induction customModels with
  | nil => cases h
  | cons p rest ih =>
      rw [dictGet] at h
      split at h
      next h1 =>
        injection h with h2
        have hp : p = (n, c) := by
          cases p
          simp only at h1 h2
          rw [h1, h2]
        rw [← hp]
        exact List.mem_cons_self p rest
      next h1 => exact List.mem_cons_of_mem _ (ih h)

theorem resolveName_custom {customModels : List (String × CustomModel)}
    {n : String} {c : CustomModel}
    (h : resolveName customModels n = some (ModelSel.custom c)) :
    dictGet customModels n = some c := by
  unfold resolveName at h
  cases hd : dictGet customModels n with
  | some c0 =>
      rw [hd] at h
      injection h with h2
      injection h2 with h3
      rw [h3]
  | none =>
      rw [hd] at h
      cases hf : Model.fromValue n with
      | some m => rw [hf] at h; injection h with h2; cases h2
      | none => rw [hf] at h; cases h

theorem resolveName_builtin {customModels : List (String × CustomModel)}
    {n : String} {m : Model}
    (h : resolveName customModels n = some (ModelSel.builtin m)) :
    dictGet customModels n = none ∧ Model.fromValue n = some m := by
  unfold resolveName at h
  cases hd : dictGet customModels n with
  | some c0 => rw [hd] at h; injection h with h2; cases h2
  | none =>
      rw [hd] at h
      cases hf : Model.fromValue n with
      | some m0 =>
          rw [hf] at h
          injection h with h2
          injection h2 with h3
          exact ⟨rfl, by rw [h3]⟩
      | none => rw [hf] at h; cases h

/-- A selection value producible by name resolution against this dict. -/
def ResolvedVal (customModels : List (String × CustomModel))
    (x : ModelSel) : Prop :=
  ∃ n, resolveName customModels n = some x

/-- Well-formedness of the custom-models dict as `main` builds it
(lines 87-112): each stored CustomModel carries its dict key as name. -/
def CustomModelsWF (customModels : List (String × CustomModel)) : Prop :=
  ∀ p ∈ customModels, p.2.name = p.1

theorem resolved_pyEq_eq {customModels : List (String × CustomModel)}
    (hwf : CustomModelsWF customModels) {x y : ModelSel}
    (hx : ResolvedVal customModels x) (hy : ResolvedVal customModels y)
    (hpy : ModelSel.pyEq x y = true) : x = y := by
  obtain ⟨nx, hnx⟩ := hx
  obtain ⟨ny, hny⟩ := hy
  cases x with
  | builtin a =>
      cases y with
      | builtin b => simp only [ModelSel.pyEq, beq_iff_eq] at hpy; rw [hpy]
      | custom b => simp [ModelSel.pyEq] at hpy
  | custom a =>
      cases y with
      | builtin b => simp [ModelSel.pyEq] at hpy
      | custom b =>
          simp only [ModelSel.pyEq, beq_iff_eq] at hpy
          have ha := resolveName_custom hnx
          have hb := resolveName_custom hny
          have hka : a.name = nx := hwf _ (dictGet_mem ha)
          have hkb : b.name = ny := hwf _ (dictGet_mem hb)
          have hxy : nx = ny := by rw [← hka, ← hkb, hpy]
          rw [hxy] at ha
          rw [ha] at hb
          injection hb with h2
          rw [h2]

theorem resolved_selName_eq {customModels : List (String × CustomModel)}
    (hwf : CustomModelsWF customModels) {x y : ModelSel}
    (hx : ResolvedVal customModels x) (hy : ResolvedVal customModels y)
    (hname : x.selName = y.selName) : x = y := by
  obtain ⟨nx, hnx⟩ := hx
  obtain ⟨ny, hny⟩ := hy
  cases x with
  | builtin a =>
      cases y with
      | builtin b =>
          rw [value_inj a b hname]
      | custom b =>
          obtain ⟨hd, hf⟩ := resolveName_builtin hnx
          have hva : a.value = nx := fromValue_value _ _ hf
          have hb := resolveName_custom hny
          have hkb : b.name = ny := hwf _ (dictGet_mem hb)
          have hxy : nx = ny := by
            rw [← hva, ← hkb]
            exact hname
          rw [← hxy] at hb
          rw [hb] at hd
          cases hd
  | custom a =>
      cases y with
      | builtin b =>
          obtain ⟨hd, hf⟩ := resolveName_builtin hny
          have hvb : b.value = ny := fromValue_value _ _ hf
          have ha := resolveName_custom hnx
          have hka : a.name = nx := hwf _ (dictGet_mem ha)
          have hxy : nx = ny := by
            rw [← hka, ← hvb]
            exact hname
          rw [hxy] at ha
          rw [ha] at hd
          cases hd
      | custom b =>
          have ha := resolveName_custom hnx
          have hb := resolveName_custom hny
          have hka : a.name = nx := hwf _ (dictGet_mem ha)
          have hkb : b.name = ny := hwf _ (dictGet_mem hb)
          have hxy : nx = ny := by rw [← hka, ← hkb]; exact hname
          rw [hxy] at ha
          rw [ha] at hb
          injection hb with h2
          rw [h2]

theorem setInsert_resolved {customModels : List (String × CustomModel)}
    {acc : List ModelSel} {v : ModelSel}
    (hacc : ∀ x ∈ acc, ResolvedVal customModels x)
    (hv : ResolvedVal customModels v) :
    ∀ x ∈ setInsert acc v, ResolvedVal customModels x := by
  intro x hx
  unfold setInsert at hx
  split at hx
  · exact hacc x hx
  · rcases List.mem_append.mp hx with h | h
    · exact hacc x h
    · rw [List.mem_singleton.mp h]; exact hv

theorem setInsert_pairwise {acc : List ModelSel} {v : ModelSel}
    (hacc : acc.Pairwise fun a b => ModelSel.pyEq a b = false) :
    (setInsert acc v).Pairwise fun a b => ModelSel.pyEq a b = false := by
  unfold setInsert
  split
  next => exact hacc
  next hmem =>
    rw [List.pairwise_append]
    refine ⟨hacc, List.pairwise_singleton _ _, ?_⟩
    intro a ha b hb
    rw [List.mem_singleton.mp hb]
    unfold setMem at hmem
    rw [Bool.not_eq_true, List.any_eq_false] at hmem
    simpa using hmem a ha

theorem setInsert_mem {customModels : List (String × CustomModel)}
    (hwf : CustomModelsWF customModels) {acc : List ModelSel} {v m : ModelSel}
    (hacc : ∀ x ∈ acc, ResolvedVal customModels x)
    (hv : ResolvedVal customModels v) :
    m ∈ setInsert acc v ↔ m ∈ acc ∨ m = v := by
  unfold setInsert
  split
  next hmem =>
    constructor
    · exact Or.inl
    · rintro (h | rfl)
      · exact h
      · unfold setMem at hmem
        rw [List.any_eq_true] at hmem
        obtain ⟨x, hx, hpx⟩ := hmem
        rw [← resolved_pyEq_eq hwf (hacc x hx) hv hpx]
        exact hx
  next => simp [List.mem_append]

theorem resolveLoop_resolved {customModels : List (String × CustomModel)}
    {names : List String} {acc : List ModelSel}
    (hacc : ∀ x ∈ acc, ResolvedVal customModels x) :
    ∀ x ∈ (resolveLoop customModels names acc).1,
      ResolvedVal customModels x := by
  induction names generalizing acc with
  | nil => exact hacc
  | cons n rest ih =>
      rw [resolveLoop]
      cases h : resolveName customModels n with
      | some v => exact ih (setInsert_resolved hacc ⟨n, h⟩)
      | none => exact ih hacc

theorem resolveLoop_pairwise {customModels : List (String × CustomModel)}
    {names : List String} {acc : List ModelSel}
    (hacc : acc.Pairwise fun a b => ModelSel.pyEq a b = false) :
    (resolveLoop customModels names acc).1.Pairwise
      fun a b => ModelSel.pyEq a b = false := by
  induction names generalizing acc with
  | nil => exact hacc
  | cons n rest ih =>
      rw [resolveLoop]
      cases h : resolveName customModels n with
      | some v => exact ih (setInsert_pairwise hacc)
      | none => exact ih hacc

theorem resolveLoop_mem {customModels : List (String × CustomModel)}
    (hwf : CustomModelsWF customModels)
    {names : List String} {acc : List ModelSel}
    (hacc : ∀ x ∈ acc, ResolvedVal customModels x) (m : ModelSel) :
    m ∈ (resolveLoop customModels names acc).1 ↔
      m ∈ acc ∨ ∃ n ∈ names, resolveName customModels n = some m := by
  induction names generalizing acc with
  | nil => simp [resolveLoop]
  | cons n rest ih =>
      rw [resolveLoop]
      cases h : resolveName customModels n with
      | some v =>
          rw [ih (setInsert_resolved hacc ⟨n, h⟩),
            setInsert_mem hwf hacc ⟨n, h⟩]
          constructor
          · rintro ((hm | rfl) | ⟨n2, hn2, hr2⟩)
            · exact Or.inl hm
            · exact Or.inr ⟨n, List.mem_cons_self n rest, h⟩
            · exact Or.inr ⟨n2, List.mem_cons_of_mem n hn2, hr2⟩
          · rintro (hm | ⟨n2, hn2, hr2⟩)
            · exact Or.inl (Or.inl hm)
            · rcases List.mem_cons.mp hn2 with rfl | hn3
              · rw [h] at hr2
                injection hr2 with h3
                exact Or.inl (Or.inr h3.symm)
              · exact Or.inr ⟨n2, hn3, hr2⟩
      | none =>
          rw [ih hacc]
          constructor
          · rintro (hm | ⟨n2, hn2, hr2⟩)
            · exact Or.inl hm
            · exact Or.inr ⟨n2, List.mem_cons_of_mem n hn2, hr2⟩
          · rintro (hm | ⟨n2, hn2, hr2⟩)
            · exact Or.inl hm
            · rcases List.mem_cons.mp hn2 with rfl | hn3
              · rw [h] at hr2
                cases hr2
              · exact Or.inr ⟨n2, hn3, hr2⟩

theorem resolveLoop_warnings (customModels : List (String × CustomModel))
    (names : List String) (acc : List ModelSel) :
    (resolveLoop customModels names acc).2 =
      names.filter fun n => (resolveName customModels n).isNone := by
  induction names generalizing acc with
  | nil => rfl
  | cons n rest ih =>
      rw [resolveLoop, List.filter_cons]
      cases h : resolveName customModels n with
      | some v => simp [h, ih]
      | none => simp [h, ih]

theorem resolveLoop_selNames_nodup {customModels : List (String × CustomModel)}
    (hwf : CustomModelsWF customModels) (names : List String) :
    ((resolveLoop customModels names []).1.map ModelSel.selName).Nodup := by
  have hpw := @resolveLoop_pairwise customModels names [] List.Pairwise.nil
  have hres := @resolveLoop_resolved customModels names []
    (by intro x hx; cases hx)
  have hpw2 : (resolveLoop customModels names []).1.Pairwise
      fun a b => ModelSel.selName a ≠ ModelSel.selName b := by
    refine hpw.imp_of_mem ?_
    intro a b ha hb hab hcontra
    have hEq : a = b := resolved_selName_eq hwf (hres a ha) (hres b hb) hcontra
    rw [hEq, pyEq_refl b] at hab
    cases hab
  exact List.pairwise_map.mpr hpw2

/-- C2 counterexample: the claim says the pool at AudioStart is in
insertion order of first occurrence of the names, but `self.models` is a
Python set, whose iteration order is unspecified. For the Detect
request ["okay_nabu", "hey_jarvis"] the reversed iteration order is a
valid permutation of the set contents, and then the pool is NOT in
first-occurrence insertion order. -/
theorem detect_pool_order_counterexample :
    [ModelSel.builtin Model.hey_jarvis, ModelSel.builtin Model.okay_nabu].Perm
      (startModels (handleDetect [] ["okay_nabu", "hey_jarvis"] initState)) ∧
    (handleAudioStart
        [ModelSel.builtin Model.hey_jarvis, ModelSel.builtin Model.okay_nabu]
        (handleDetect [] ["okay_nabu", "hey_jarvis"] initState)).detectors.map
      (fun d => d.name) ≠ ["okay_nabu", "hey_jarvis"] := by
  constructor
  · have e : startModels (handleDetect [] ["okay_nabu", "hey_jarvis"] initState)
        = [ModelSel.builtin Model.okay_nabu, ModelSel.builtin Model.hey_jarvis] := by
      decide
    rw [e]
    exact List.Perm.swap _ _ _
  · decide

/-- C2 amended: for every Detect(names) followed by AudioStart, and every
iteration order the Python set may yield, the pool contains exactly one
Detector per unique resolvable name — the pool's name list is a
permutation of (rather than equal to, in first-occurrence order) the
deduplicated resolved selection, with no duplicated names — names are
resolved custom-dict first then builtin, unresolvable names are dropped
with a warning and produce no Detector. (Assumes at least one name
resolves; otherwise the default-model fallback of C4 applies. `hwf` is
the dict shape `main` always produces: each value is stored under its own
name.) -/
theorem detect_pool_unique_per_name (s0 : HandlerState)
    (customModels : List (String × CustomModel)) (names : List String)
    (order : List ModelSel) (hwf : CustomModelsWF customModels)
    (hne : (resolveLoop customModels names []).1 ≠ [])
    (horder : order.Perm (startModels (handleDetect customModels names s0))) :
    ((handleAudioStart order (handleDetect customModels names s0)).detectors.map
        (fun d => d.name)).Perm
      ((resolveLoop customModels names []).1.map ModelSel.selName) ∧
    ((resolveLoop customModels names []).1.map ModelSel.selName).Nodup ∧
    (∀ m, m ∈ (resolveLoop customModels names []).1 ↔
      ∃ n ∈ names, resolveName customModels n = some m) ∧
    (resolveLoop customModels names []).2 =
      names.filter fun n => (resolveName customModels n).isNone := by
  have hsm : startModels (handleDetect customModels names s0) =
      (resolveLoop customModels names []).1 := by
    cases h : (resolveLoop customModels names []).1 with
    | nil => exact absurd h hne
    | cons a l => simp [startModels, handleDetect, h]
  refine ⟨?_, resolveLoop_selNames_nodup hwf names,
    fun m => (resolveLoop_mem hwf (by intro x hx; cases hx) m).trans
      (or_iff_right (List.not_mem_nil m)),
    resolveLoop_warnings customModels names []⟩
  have h1 : (handleAudioStart order
      (handleDetect customModels names s0)).detectors.map (fun d => d.name) =
      order.map ModelSel.selName := by
    show (order.map detectorOfModel).map (fun d => d.name) =
      order.map ModelSel.selName
    rw [List.map_map]
    have hfun : ((fun d : Detector => d.name) ∘ detectorOfModel) =
        ModelSel.selName := funext detectorOfModel_name
    rw [hfun]
  rw [h1]
  have h2 := horder.map ModelSel.selName
  rw [hsm] at h2
  exact h2

/-- Example custom model used in the C2 witness. -/
def exampleCustomModel : CustomModel :=
  { name := "my_model", config_path := "d/my_model.json",
    model_path := "d/my_model.tflite" }

/-- Witness for C2 (amended): names ["okay_nabu", "bogus", "my_model",
"okay_nabu"] against a one-entry custom dict; with the reversed
set-iteration order the pool names are a permutation of the unique
resolved names ["okay_nabu", "my_model"]. -/
theorem detect_pool_unique_per_name_witness :
    (resolveLoop [("my_model", exampleCustomModel)]
      ["okay_nabu", "bogus", "my_model", "okay_nabu"] []).1 ≠ [] ∧
    ((handleAudioStart
        [ModelSel.custom exampleCustomModel, ModelSel.builtin Model.okay_nabu]
        (handleDetect [("my_model", exampleCustomModel)]
          ["okay_nabu", "bogus", "my_model", "okay_nabu"]
          initState)).detectors.map (fun d => d.name)).Perm
      ((resolveLoop [("my_model", exampleCustomModel)]
        ["okay_nabu", "bogus", "my_model", "okay_nabu"] []).1.map
        ModelSel.selName) :=
  ⟨by decide,
    (detect_pool_unique_per_name initState [("my_model", exampleCustomModel)]
      ["okay_nabu", "bogus", "my_model", "okay_nabu"]
      [ModelSel.custom exampleCustomModel, ModelSel.builtin Model.okay_nabu]
      (by unfold CustomModelsWF; decide) (by decide) (by decide)).1⟩

/-- Parsed JSON object of a custom-model config file. Every field the
program reads is optional in the JSON; `none` means the key is absent.
The `languages` field exists in config files but is never read by the
code. -/
structure ConfigJson where
  type_field : Option String
  model : Option String
  wake_word : Option String
  author : Option String
  website : Option String
  trained_languages : Option (List String)
  languages : Option (List String)
  version : Option String
deriving DecidableEq

/-- One `*.json` file found by the glob: its stem and the outcome of
`open` + `json.load` (`none` = the file is unreadable or holds malformed
JSON, i.e. the call raises). -/
structure ConfigFile where
  stem : String
  parsed : Option ConfigJson
deriving DecidableEq

/-- One `--custom-model-dir` directory: its path, the `*.json` glob
results in glob order, and the names of the (model-data) files that exist
in the directory. -/
structure ModelDir where
  dirPath : String
  files : List ConfigFile
  dataFiles : List String
deriving DecidableEq

/-- Result discriminator for the embedded exception monad. -/
def exceptOk {α : Type} : Except String α → Bool
  | .ok _ => true
  | .error _ => false

/-- Body of the catalog-construction loop of `main` for one config file
(lines 90-112): duplicate stems are skipped first; then the file is
opened and parsed — a failure there escapes the loop (Python: the
exception propagates out of `main`); a `type` other than "micro" skips
the file; a missing `model` key raises KeyError; a missing model-data
file skips the file; otherwise the entry is added. -/
def processConfigFile (dir : ModelDir) (acc : List (String × CustomModel))
    (f : ConfigFile) : Except String (List (String × CustomModel)) :=
  if (dictGet acc f.stem).isSome then .ok acc
  else
    match f.parsed with
    | none => .error ("json.load failed: " ++ dir.dirPath ++ "/" ++ f.stem ++ ".json")
    | some cfg =>
        if cfg.type_field ≠ some "micro" then .ok acc
        else
          match cfg.model with
          | none => .error "KeyError: model"
          | some mfile =>
              if mfile ∈ dir.dataFiles then
                .ok (acc ++ [(f.stem,
                  { name := f.stem,
                    config_path := dir.dirPath ++ "/" ++ f.stem ++ ".json",
                    model_path := dir.dirPath ++ "/" ++ mfile })])
              else .ok acc

/-- The inner loop of `main` over one directory's glob results. -/
def processConfigFiles (dir : ModelDir) :
    List ConfigFile → List (String × CustomModel) →
      Except String (List (String × CustomModel))
  | [], acc => .ok acc
  | f :: rest, acc =>
      match processConfigFile dir acc f with
      | .error e => .error e
      | .ok acc2 => processConfigFiles dir rest acc2

/-- The outer loop of `main` over `--custom-model-dir` directories
(lines 87-112), building the custom-models dict. -/
def buildCustomModels :
    List ModelDir → List (String × CustomModel) →
      Except String (List (String × CustomModel))
  | [], acc => .ok acc
  | d :: ds, acc =>
      match processConfigFiles d d.files acc with
      | .error e => .error e
      | .ok acc2 => buildCustomModels ds acc2

/-- A config file that does not make `main` raise: it parses, and if its
type tag is "micro" it has a `model` key. -/
def configFileOk (f : ConfigFile) : Bool :=
  match f.parsed with
  | none => false
  | some cfg => cfg.type_field != some "micro" || cfg.model.isSome

theorem processConfigFile_ok (dir : ModelDir) (acc : List (String × CustomModel))
    (f : ConfigFile) (hok : configFileOk f = true) :
    exceptOk (processConfigFile dir acc f) = true := by
  unfold configFileOk at hok
  unfold processConfigFile
  split
  · rfl
  · split
    next hp => rw [hp] at hok; cases hok
    next cfg hp =>
      rw [hp] at hok
      split
      next => rfl
      next hty =>
        rw [not_not] at hty
        split
        next hm => simp [hty, hm] at hok
        next mfile hm => split <;> rfl

theorem processConfigFiles_ok (dir : ModelDir) (fs : List ConfigFile)
    (acc : List (String × CustomModel))
    (hok : ∀ f ∈ fs, configFileOk f = true) :
    exceptOk (processConfigFiles dir fs acc) = true := by
  induction fs generalizing acc with
  | nil => rfl
  | cons f rest ih =>
      rw [processConfigFiles]
      cases hpf : processConfigFile dir acc f with
      | error e =>
          have := processConfigFile_ok dir acc f (hok f (List.mem_cons_self f rest))
          rw [hpf] at this
          cases this
      | ok acc2 => exact ih acc2 fun g hg => hok g (List.mem_cons_of_mem f hg)

/-- Config used in the C6 examples: a valid "micro" config whose model
data file exists. -/
def goodConfig : ConfigJson :=
  { type_field := some "micro", model := some "good.tflite",
    wake_word := some "Good Word", author := none, website := none,
    trained_languages := none, languages := none, version := none }

/-- Config used in the C6 examples: a valid "micro" config whose model
data file is missing from the directory. -/
def nodataConfig : ConfigJson :=
  { type_field := some "micro", model := some "nodata.tflite",
    wake_word := some "No Data", author := none, website := none,
    trained_languages := none, languages := none, version := none }

/-- Directory with a malformed config followed by a good one. -/
def badDir : ModelDir :=
  { dirPath := "d",
    files := [{ stem := "bad", parsed := none },
              { stem := "good", parsed := some goodConfig }],
    dataFiles := ["good.tflite"] }

/-- Directory with a missing-model-data config followed by a good one. -/
def skipDir : ModelDir :=
  { dirPath := "d",
    files := [{ stem := "nodata", parsed := some nodataConfig },
              { stem := "good", parsed := some goodConfig }],
    dataFiles := ["good.tflite"] }

/-- C6 counterexample: a directory whose first config file is
unreadable/malformed (`json.load` raises) followed by a perfectly good
entry. The claim says construction is non-fatal and completes for the
remaining entries; in fact the exception aborts the whole loop and the
good entry is lost. -/
theorem catalog_malformed_json_fatal :
    buildCustomModels [badDir] [] = .error "json.load failed: d/bad.json" :=
  rfl

/-- C6 amended: a config entry whose referenced model-data file is
missing (or whose type tag is not "micro", or whose stem duplicates an
earlier entry) is non-fatal: it is skipped with a diagnostic and catalog
construction completes for the remaining entries. But an unreadable or
malformed config JSON (or a "micro" config without a `model` key) raises
and aborts catalog construction. -/
theorem catalog_skip_nonfatal (dirs : List ModelDir)
    (acc : List (String × CustomModel))
    (hok : ∀ dir ∈ dirs, ∀ f ∈ dir.files, configFileOk f = true) :
    exceptOk (buildCustomModels dirs acc) = true := by
  induction dirs generalizing acc with
  | nil => rfl
  | cons d ds ih =>
      rw [buildCustomModels]
      cases hpd : processConfigFiles d d.files acc with
      | error e =>
          have := processConfigFiles_ok d d.files acc
            (hok d (List.mem_cons_self d ds))
          rw [hpd] at this
          cases this
      | ok acc2 => exact ih acc2 fun dir hdir => hok dir (List.mem_cons_of_mem d hdir)

/-- Witness for C6 (amended): a directory with one entry whose model-data
file is missing and one good entry; construction completes, skipping the
former and keeping the latter. -/
theorem catalog_skip_nonfatal_witness :
    exceptOk (buildCustomModels [skipDir] []) = true ∧
    buildCustomModels [skipDir] [] =
      .ok [("good", { name := "good", config_path := "d/good.json",
                      model_path := "d/good.tflite" })] :=
  ⟨catalog_skip_nonfatal [skipDir] [] (by decide), rfl⟩

/-- Descriptor of one wake model inside the Info reply (WakeModel). -/
structure WakeModelDescr where
  name : String
  description : String
  phrase : String
  attribution_name : String
  attribution_url : String
  installed : Bool
  languages : List String
  version : String
deriving DecidableEq

/-- The `_model_phrase` helper (lines 314-317). -/
def modelPhrase (m : Model) : String :=
  String.intercalate " " ((m.value.splitOn "_").map String.capitalize)

/-- Builtin wake model descriptors of `_get_info` (lines 261-275),
iterating the `Model` enum in definition order. -/
def builtinWakeModels : List WakeModelDescr :=
  [Model.okay_nabu, Model.hey_jarvis, Model.hey_mycroft].map fun m =>
    { name := m.value, description := modelPhrase m, phrase := modelPhrase m,
      attribution_name := "kahrendt",
      attribution_url := "https://github.com/kahrendt/microWakeWord/",
      installed := true, languages := ["en"], version := "2.0.0" }

/-- Custom wake model descriptor of `_get_info` (lines 282-295) for one
already-parsed config: `config["wake_word"]` is indexed directly (KeyError
when absent), the remaining optional fields fall back via `.get` to the
empty string or empty list; only `trained_languages` is consulted for the
language list. -/
def wakeModelOfCustom (model_id : String) (cfg : ConfigJson) :
    Except String WakeModelDescr :=
  match cfg.wake_word with
  | none => .error ("KeyError: wake_word in " ++ model_id)
  | some ww =>
      .ok { name := model_id, description := ww, phrase := ww,
            attribution_name := cfg.author.getD "",
            attribution_url := cfg.website.getD "",
            installed := true,
            languages := cfg.trained_languages.getD [],
            version := cfg.version.getD "" }

/-- Config without a `wake_word` key, used in the C7 counterexample. -/
def noWakeWordConfig : ConfigJson :=
  { type_field := some "micro", model := some "m.tflite", wake_word := none,
    author := some "alice", website := none, trained_languages := none,
    languages := none, version := none }

/-- C7 counterexample: a custom-model config without the `wake_word` key
makes the descriptor build raise KeyError instead of degrading to a
fallback value — `config["wake_word"]` is indexed directly at lines
285-286. -/
theorem custom_info_missing_wake_word_fails :
    wakeModelOfCustom "m" noWakeWordConfig =
      .error "KeyError: wake_word in m" :=
  rfl

/-- C7 amended: the optional fields author, website, trained_languages
and version absent from the config degrade to empty-string / empty-list
fallbacks (not to an "unknown" sentinel); the `languages` key is never
consulted; a missing `wake_word`, in contrast, raises KeyError and fails
the descriptor build (see the counterexample). -/
theorem custom_info_fallbacks (model_id : String) (cfg : ConfigJson)
    (ww : String) (hww : cfg.wake_word = some ww)
    (hauthor : cfg.author = none) (hweb : cfg.website = none)
    (hlang : cfg.trained_languages = none) (hver : cfg.version = none) :
    wakeModelOfCustom model_id cfg =
      .ok { name := model_id, description := ww, phrase := ww,
            attribution_name := "", attribution_url := "",
            installed := true, languages := [], version := "" } := by
  simp [wakeModelOfCustom, hww, hauthor, hweb, hlang, hver]

/-- Config with `wake_word` present, every other optional key absent, and
a `languages` key that the code never reads; used in the C7 witness. -/
def fallbackConfig : ConfigJson :=
  { type_field := some "micro", model := some "m.tflite",
    wake_word := some "Hey Me", author := none, website := none,
    trained_languages := none, languages := some ["en", "de"],
    version := none }

/-- Witness for C7 (amended): all optional fields absent degrade to empty
fallbacks, and the populated `languages` key is ignored. -/
theorem custom_info_fallbacks_witness :
    wakeModelOfCustom "m" fallbackConfig =
      .ok { name := "m", description := "Hey Me", phrase := "Hey Me",
            attribution_name := "", attribution_url := "",
            installed := true, languages := [], version := "" } :=
  custom_info_fallbacks "m" fallbackConfig "Hey Me" rfl rfl rfl rfl rfl

/-- The custom-models part of `_get_info` (lines 277-295): for each dict
entry, the config file at its `config_path` is re-opened and re-parsed
from the CURRENT disk contents (`disk` maps a path to the parse outcome
of the file now stored there; `none` = open/json.load raises). -/
def customWakeModels (disk : String → Option ConfigJson) :
    List (String × CustomModel) → Except String (List WakeModelDescr)
  | [] => .ok []
  | p :: rest =>
      match disk p.2.config_path with
      | none => .error ("json.load failed: " ++ p.2.config_path)
      | some cfg =>
          match wakeModelOfCustom p.1 cfg with
          | .error e => .error e
          | .ok d =>
              match customWakeModels disk rest with
              | .error e => .error e
              | .ok ds => .ok (d :: ds)

/-- The model list of the Info reply assembled by `_get_info`
(lines 259-311): builtins first, then the custom models in dict order,
each re-parsed from disk at query time. -/
def getInfo (customModels : List (String × CustomModel))
    (disk : String → Option ConfigJson) :
    Except String (List WakeModelDescr) :=
  match customWakeModels disk customModels with
  | .error e => .error e
  | .ok ds => .ok (builtinWakeModels ++ ds)

/-- Catalog entry used in the C8 example. -/
def infoCustomEntry : String × CustomModel :=
  ("m", { name := "m", config_path := "d/m.json", model_path := "d/m.tflite" })

/-- Disk state where d/m.json holds wake word "Word A". -/
def wordAConfig : ConfigJson :=
  { type_field := some "micro", model := some "m.tflite",
    wake_word := some "Word A", author := some "alice", website := none,
    trained_languages := none, languages := none, version := none }

/-- Disk state where d/m.json holds wake word "Word B". -/
def wordBConfig : ConfigJson :=
  { type_field := some "micro", model := some "m.tflite",
    wake_word := some "Word B", author := some "alice", website := none,
    trained_languages := none, languages := none, version := none }

/-- Disk function: d/m.json contains wordAConfig, nothing else exists. -/
def diskA : String → Option ConfigJson :=
  fun p => if p = "d/m.json" then some wordAConfig else none

/-- Disk function: d/m.json contains wordBConfig, nothing else exists. -/
def diskB : String → Option ConfigJson :=
  fun p => if p = "d/m.json" then some wordBConfig else none

/-- Disk function agreeing with diskA on d/m.json but differing
everywhere else. -/
def diskA2 : String → Option ConfigJson :=
  fun p => if p = "d/m.json" then some wordAConfig else some wordBConfig

/-- Expected custom descriptor for wordAConfig. -/
def wordADescr : WakeModelDescr :=
  { name := "m", description := "Word A", phrase := "Word A",
    attribution_name := "alice", attribution_url := "",
    installed := true, languages := [], version := "" }

/-- Expected custom descriptor for wordBConfig. -/
def wordBDescr : WakeModelDescr :=
  { name := "m", description := "Word B", phrase := "Word B",
    attribution_name := "alice", attribution_url := "",
    installed := true, languages := [], version := "" }

/-- C8 counterexample: with the same catalog entry, two disk states that
differ only in the content of the entry's config file produce different
Describe replies — `_get_info` re-opens and re-parses the file at query
time (lines 278-280), so the Info reply DOES depend on the disk contents
at query time. -/
theorem describe_reads_disk_counterexample :
    getInfo [infoCustomEntry] diskA ≠ getInfo [infoCustomEntry] diskB := by
  intro h
  have hA : getInfo [infoCustomEntry] diskA =
      .ok (builtinWakeModels ++ [wordADescr]) := rfl
  have hB : getInfo [infoCustomEntry] diskB =
      .ok (builtinWakeModels ++ [wordBDescr]) := rfl
  rw [hA, hB] at h
  injection h with h2
  have h3 := List.append_cancel_left h2
  injection h3 with h4
  exact absurd h4 (by decide)

/-- C8 amended: the Describe reply is a function of the catalog's entry
list fixed at startup together with the at-query-time contents of each
entry's config file — it is unchanged under any disk change outside the
catalog's config paths, but changes when a listed config file's content
changes (counterexample). -/
theorem describe_depends_only_on_config_files
    (customModels : List (String × CustomModel))
    (disk1 disk2 : String → Option ConfigJson)
    (hagree : ∀ p ∈ customModels,
      disk1 p.2.config_path = disk2 p.2.config_path) :
    getInfo customModels disk1 = getInfo customModels disk2 := by
  have h : customWakeModels disk1 customModels =
      customWakeModels disk2 customModels := by
    induction customModels with
    | nil => rfl
    | cons p rest ih =>
        rw [customWakeModels, customWakeModels,
          hagree p (List.mem_cons_self p rest),
          ih fun q hq => hagree q (List.mem_cons_of_mem p hq)]
  unfold getInfo
  rw [h]

/-- Witness for C8 (amended): a disk change outside the catalog's single
config path leaves the Describe reply unchanged. -/
theorem describe_depends_only_on_config_files_witness :
    getInfo [infoCustomEntry] diskA = getInfo [infoCustomEntry] diskA2 :=
  describe_depends_only_on_config_files [infoCustomEntry] diskA diskA2
    (by decide)

end WyomingMicroWakeWord
